import Mathlib

/-!
Verification of the DIGIPIN (UDPIN) encoder/decoder module `src/lib/udpin.ts`
of the mydigipin1-pwa repository.

The module is a hierarchical 4×4 spatial-grid geocoder over exact real
(here: rational) coordinate arithmetic.  Every definition below is a direct
shallow embedding of the corresponding TypeScript function; strings are
modelled as `List Char`, coordinates and bounding-box scalars as `ℚ`, and
the two thrown errors as a `DecodeError` sum type.
-/

/-- Bounding box record: the four scalars (minLat, maxLat, minLon, maxLon)
used both as domain bounds and as the working box of the encoder/decoder. -/
structure Bounds where
  minLat : ℚ
  maxLat : ℚ
  minLon : ℚ
  maxLon : ℚ
deriving DecidableEq

/-- Bounding box for India, used for 10-character DIGIPINs (source lines 20-25). -/
def INDIA_BOUNDS : Bounds := ⟨2.5, 38.5, 63.5, 99.5⟩

/-- Global bounds for 12-character DIGIPINs (source lines 28-33). -/
def GLOBAL_BOUNDS : Bounds := ⟨-90, 90, -180, 180⟩

/-- DIGIPIN labelling grid (source lines 12-17).  Per the source comment,
rows represent latitude divisions (0 = north, 3 = south) and columns
longitude divisions (0 = west, 3 = east). -/
def DIGIPIN_GRID : List (List Char) :=
  [['F', 'C', '9', '8'],
   ['J', '3', '2', '7'],
   ['K', '4', '5', '6'],
   ['L', 'M', 'P', 'T']]

/-- Grid lookup `DIGIPIN_GRID[row][col]` (the source only ever indexes with
row, col < 4; out-of-range access is given a dummy default). -/
def gridAt (row col : Nat) : Char := (DIGIPIN_GRID.getD row []).getD col ' '

/-- `isInIndia` (source lines 38-45): all four comparisons inclusive. -/
def isInIndia (lat lon : ℚ) : Bool :=
  if lat ≥ INDIA_BOUNDS.minLat ∧ lat ≤ INDIA_BOUNDS.maxLat ∧
     lon ≥ INDIA_BOUNDS.minLon ∧ lon ≤ INDIA_BOUNDS.maxLon then true else false

/-- Row-selection scan of `generateUDPIN` (source lines 75-82): scan i = 0..3,
take the first i with lat ≥ (maxLat − i·latDiv) − latDiv; the loop variable
`row` is initialised to 0, so if no i matches the result is the initial 0. -/
def findRow (maxLat latDiv lat : ℚ) : Nat :=
  if lat ≥ maxLat - 0 * latDiv - latDiv then 0
  else if lat ≥ maxLat - 1 * latDiv - latDiv then 1
  else if lat ≥ maxLat - 2 * latDiv - latDiv then 2
  else if lat ≥ maxLat - 3 * latDiv - latDiv then 3
  else 0

/-- Column-selection scan of `generateUDPIN` (source lines 84-91): scan
i = 0..3, take the first i with lng < minLng + (i+1)·lngDiv; the loop
variable `col` is initialised to 0, so if no i matches the result is the
initial 0. -/
def findCol (minLng lngDiv lng : ℚ) : Nat :=
  if lng < minLng + (0 + 1) * lngDiv then 0
  else if lng < minLng + (1 + 1) * lngDiv then 1
  else if lng < minLng + (2 + 1) * lngDiv then 2
  else if lng < minLng + (3 + 1) * lngDiv then 3
  else 0

/-- Body of the `for (let level = 1; level <= digits; level++)` loop of
`generateUDPIN` (source lines 68-108), with the list of remaining level
numbers as explicit fuel.  Each iteration appends the grid character of the
selected cell, narrows the working box to that cell, and appends a hyphen
after levels 3 and 6 (India) or 4 and 8 (global). -/
def encodeLevels (isIndia : Bool) (lat lng : ℚ) : List Nat → Bounds → List Char
  | [], _ => []
  | level :: rest, b =>
    let latDiv := (b.maxLat - b.minLat) / 4
    let lngDiv := (b.maxLon - b.minLon) / 4
    let row := findRow b.maxLat latDiv lat
    let col := findCol b.minLon lngDiv lng
    let hy : List Char :=
      if isIndia then (if level = 3 ∨ level = 6 then ['-'] else [])
      else (if level = 4 ∨ level = 8 then ['-'] else [])
    gridAt row col ::
      (hy ++ encodeLevels isIndia lat lng rest
        ⟨b.maxLat - (row + 1) * latDiv, b.maxLat - row * latDiv,
         b.minLon + col * lngDiv, b.minLon + col * lngDiv + lngDiv⟩)

/-- `generateUDPIN` (source lines 54-111): select the domain by
`isInIndia`, then run 10 (India) or 12 (global) levels from the domain
bounds.  The result is the hyphenated string the source returns. -/
def generateUDPIN (lat lng : ℚ) : List Char :=
  if isInIndia lat lng then
    encodeLevels true lat lng [1, 2, 3, 4, 5, 6, 7, 8, 9, 10] INDIA_BOUNDS
  else
    encodeLevels false lat lng [1, 2, 3, 4, 5, 6, 7, 8, 9, 10, 11, 12] GLOBAL_BOUNDS

/-- The cleaning step used by `decodeUDPIN`, `isValidUDPIN` and
`formatUDPIN`: remove every hyphen, then uppercase. -/
def cleanUDPIN (s : List Char) : List Char :=
  (s.filter (fun c => c != '-')).map Char.toUpper

/-- The 16 valid DIGIPIN characters (source line 250). -/
def validChars : List Char :=
  ['F', 'C', '9', '8', 'J', '3', '2', '7', 'K', '4', '5', '6', 'L', 'M', 'P', 'T']

/-- `isValidUDPIN` (source lines 240-252): clean, reject lengths other than
10 and 12, then require every character to be a valid DIGIPIN character. -/
def isValidUDPIN (s : List Char) : Bool :=
  if (cleanUDPIN s).length ≠ 10 ∧ (cleanUDPIN s).length ≠ 12 then false
  else (cleanUDPIN s).all (fun c => validChars.contains c)

/-- The two errors thrown by `decodeUDPIN`: `'Invalid DIGIPIN format'`
(source line 186) and `` `Invalid character in DIGIPIN: ${char}` ``
(source line 224, which carries only the character). -/
inductive DecodeError where
  | invalidFormat : DecodeError
  | invalidChar : Char → DecodeError
deriving DecidableEq

/-- The decoder's reverse grid lookup (source lines 195-218): scan rows
0..3 and within each row columns 0..3, returning the first (row, col)
position whose grid entry equals the character. -/
def charPosAux (c : Char) : Nat → List (List Char) → Option (Nat × Nat)
  | _, [] => none
  | r, row :: rest =>
    match row.findIdx? (fun x => x == c) with
    | some k => some (r, k)
    | none => charPosAux c (r + 1) rest

/-- Position of a character in `DIGIPIN_GRID`, scanned in source order. -/
def charPos (c : Char) : Option (Nat × Nat) := charPosAux c 0 DIGIPIN_GRID

/-- Per-character loop of `decodeUDPIN` (source lines 194-226).  For a
found character at (row, col) the box is narrowed by
`minLat += latStep*row; maxLat = minLat + latStep` (and likewise for
longitude), where the second assignment reads the already-updated minimum;
an unknown character raises the invalid-character error. -/
def decodeLoop : List Char → Bounds → Except DecodeError Bounds
  | [], b => .ok b
  | c :: cs, b =>
    match charPos c with
    | some (row, col) =>
      let latStep := (b.maxLat - b.minLat) / 4
      let lonStep := (b.maxLon - b.minLon) / 4
      decodeLoop cs ⟨b.minLat + row * latStep, b.minLat + row * latStep + latStep,
                     b.minLon + col * lonStep, b.minLon + col * lonStep + lonStep⟩
    | none => .error (.invalidChar c)

/-- `decodeUDPIN` (source lines 181-233): clean, reject anything
`isValidUDPIN` rejects with the format error, pick the domain by cleaned
length (10 ⇒ India), run the per-character loop, and return the centre of
the final box. -/
def decodeUDPIN (s : List Char) : Except DecodeError (ℚ × ℚ) :=
  if isValidUDPIN (cleanUDPIN s) then
    match decodeLoop (cleanUDPIN s)
        (if (cleanUDPIN s).length = 10 then INDIA_BOUNDS else GLOBAL_BOUNDS) with
    | .ok b => .ok ((b.minLat + b.maxLat) / 2, (b.minLon + b.maxLon) / 2)
    | .error e => .error e
  else .error .invalidFormat

/-- `formatUDPIN` (source lines 259-273): clean, then re-insert hyphens by
slicing at (3, 6) for cleaned length 10 and (4, 8) for length 12; any other
length is returned cleaned but otherwise unchanged. -/
def formatUDPIN (s : List Char) : List Char :=
  if (cleanUDPIN s).length = 10 then
    (cleanUDPIN s).take 3 ++ ['-'] ++ ((cleanUDPIN s).drop 3).take 3 ++ ['-'] ++
      (cleanUDPIN s).drop 6
  else if (cleanUDPIN s).length = 12 then
    (cleanUDPIN s).take 4 ++ ['-'] ++ ((cleanUDPIN s).drop 4).take 4 ++ ['-'] ++
      (cleanUDPIN s).drop 8
  else cleanUDPIN s

/-- Modelled from the spec: a separator is inserted after symbol positions
p and q of a raw symbol string, as the Formatter section of the spec
describes the canonical separator layout. -/
def insertSeparatorsAfter (cs : List Char) (p q : Nat) : List Char :=
  cs.take p ++ ['-'] ++ (cs.drop p).take (q - p) ++ ['-'] ++ cs.drop q

/-- The character-producing part of the `generateUDPIN` loop, without the
hyphen insertion: the same per-level cell selection and box narrowing as
`encodeLevels`, emitting only the grid characters.  `encodeLevels` is
proved below to be `hyphenate` applied to this. -/
def encodeRaw (lat lng : ℚ) : List Nat → Bounds → List Char
  | [], _ => []
  | _ :: rest, b =>
    let latDiv := (b.maxLat - b.minLat) / 4
    let lngDiv := (b.maxLon - b.minLon) / 4
    let row := findRow b.maxLat latDiv lat
    let col := findCol b.minLon lngDiv lng
    gridAt row col ::
      encodeRaw lat lng rest
        ⟨b.maxLat - (row + 1) * latDiv, b.maxLat - row * latDiv,
         b.minLon + col * lngDiv, b.minLon + col * lngDiv + lngDiv⟩

/-- The hyphen-insertion part of the `generateUDPIN` loop: after the
character of level 3 or 6 (India) respectively 4 or 8 (global), a hyphen is
appended. -/
def hyphenate (isIndia : Bool) : List Nat → List Char → List Char
  | _, [] => []
  | [], c :: cs => c :: cs
  | level :: ls, c :: cs =>
    c :: ((if isIndia then (if level = 3 ∨ level = 6 then ['-'] else [])
           else (if level = 4 ∨ level = 8 then ['-'] else [])) ++ hyphenate isIndia ls cs)

/-! ## Claim C4 — encoder column selection at the eastern edge -/

/-- C4 counterexample: on the Regional outer box (minLng = 63.5,
lngDiv = 9), a longitude equal to the eastern edge 99.5 makes the encoder's
column scan select column 0 — the loop finds no match and `col` keeps its
initialisation value — not column 3 as the claim states. -/
theorem findCol_east_edge_is_zero :
    findCol 63.5 9 99.5 = 0 ∧ findCol 63.5 9 99.5 ≠ 3 := by
  constructor <;> norm_num [findCol]

/-- C4 (amended): the encoder's column scan picks the first i ∈ 0..3 with
lng < minLng + (i+1)·lngDiv; when the longitude equals (or exceeds) the
box's eastern edge minLng + 4·lngDiv, no i in 0..3 matches and the column
is the loop variable's initial value 0, not 3. -/
theorem findCol_first_match (minLng lngDiv lng : ℚ) (hd : 0 ≤ lngDiv) :
    (¬ lng < minLng + 4 * lngDiv → findCol minLng lngDiv lng = 0) ∧
    (∀ i : Fin 4, lng < minLng + ((i : ℚ) + 1) * lngDiv →
      (∀ j : Fin 4, j < i → ¬ lng < minLng + ((j : ℚ) + 1) * lngDiv) →
      findCol minLng lngDiv lng = i) := by
  constructor
  · intro h
    have h1 : ¬ lng < minLng + (0 + 1) * lngDiv := by
      intro hc; apply h; nlinarith
    have h2 : ¬ lng < minLng + (1 + 1) * lngDiv := by
      intro hc; apply h; nlinarith
    have h3 : ¬ lng < minLng + (2 + 1) * lngDiv := by
      intro hc; apply h; nlinarith
    have h4 : ¬ lng < minLng + (3 + 1) * lngDiv := by
      intro hc; apply h; nlinarith
    simp only [findCol, if_neg h1, if_neg h2, if_neg h3, if_neg h4]
  · intro i hi hprev
    fin_cases i
    · simp only [findCol]
      rw [if_pos (by exact_mod_cast hi)]
    · have h0 := hprev 0 (by decide)
      simp only [Fin.val_zero, Nat.cast_zero] at h0
      simp only [findCol, Fin.isValue]
      rw [if_neg h0, if_pos (by exact_mod_cast hi)]
    · have h0 := hprev 0 (by decide)
      have h1 := hprev 1 (by decide)
      simp only [Fin.val_zero, Nat.cast_zero] at h0
      simp only [Fin.val_one, Nat.cast_one] at h1
      simp only [findCol, Fin.isValue]
      rw [if_neg h0, if_neg h1, if_pos (by exact_mod_cast hi)]
    · have h0 := hprev 0 (by decide)
      have h1 := hprev 1 (by decide)
      have h2 := hprev 2 (by decide)
      simp only [Fin.val_zero, Nat.cast_zero] at h0
      simp only [Fin.val_one, Nat.cast_one] at h1
      simp only [Fin.val_two, Nat.cast_ofNat] at h2
      simp only [findCol, Fin.isValue]
      rw [if_neg h0, if_neg h1, if_neg h2, if_pos (by exact_mod_cast hi)]

/-- C4 witness: the amended east-edge clause instantiated on the Regional
outer box, longitude exactly at the eastern edge 99.5. -/
theorem findCol_first_match_witness :
    (0 : ℚ) ≤ 9 ∧ ¬ (99.5 : ℚ) < 63.5 + 4 * 9 ∧ findCol 63.5 9 99.5 = 0 :=
  ⟨by norm_num, by norm_num,
    (findCol_first_match 63.5 9 99.5 (by norm_num)).1 (by norm_num)⟩

/-! ## Claim C5 — the literal domain-switch scenario -/

/-- C5: the code contradicts its own embedded test expectations
(source lines 127-147).  Both (17.362231, 78.523231) and
(17.362230, 78.523235) lie inside the India bounds, so `generateUDPIN`
returns the same 10-symbol Regional code "422-573-CF86" for both; it does
not return the 12-symbol Global code "3F26-C49J-2MP4" the test expects for
the first input, and no domain switch happens. -/
theorem generateUDPIN_literal_scenario :
    isInIndia 17.362231 78.523231 = true ∧
    generateUDPIN 17.362231 78.523231 =
      ['4', '2', '2', '-', '5', '7', '3', '-', 'C', 'F', '8', '6'] ∧
    generateUDPIN 17.362230 78.523235 =
      ['4', '2', '2', '-', '5', '7', '3', '-', 'C', 'F', '8', '6'] ∧
    generateUDPIN 17.362231 78.523231 ≠
      ['3', 'F', '2', '6', '-', 'C', '4', '9', 'J', '-', '2', 'M', 'P', '4'] := by
  have hin1 : isInIndia 17.362231 78.523231 = true := by
    simp only [isInIndia, INDIA_BOUNDS]
    rw [if_pos (by norm_num)]
  have hin2 : isInIndia 17.362230 78.523235 = true := by
    simp only [isInIndia, INDIA_BOUNDS]
    rw [if_pos (by norm_num)]
  have h1 : generateUDPIN 17.362231 78.523231 =
      ['4', '2', '2', '-', '5', '7', '3', '-', 'C', 'F', '8', '6'] := by
    rw [generateUDPIN, if_pos hin1]
    rw [encodeLevels]; norm_num [findRow, findCol, gridAt, DIGIPIN_GRID, INDIA_BOUNDS]
    rw [encodeLevels]; norm_num [findRow, findCol, gridAt, DIGIPIN_GRID]
    rw [encodeLevels]; norm_num [findRow, findCol, gridAt, DIGIPIN_GRID]
    rw [encodeLevels]; norm_num [findRow, findCol, gridAt, DIGIPIN_GRID]
    rw [encodeLevels]; norm_num [findRow, findCol, gridAt, DIGIPIN_GRID]
    rw [encodeLevels]; norm_num [findRow, findCol, gridAt, DIGIPIN_GRID]
    rw [encodeLevels]; norm_num [findRow, findCol, gridAt, DIGIPIN_GRID]
    rw [encodeLevels]; norm_num [findRow, findCol, gridAt, DIGIPIN_GRID]
    rw [encodeLevels]; norm_num [findRow, findCol, gridAt, DIGIPIN_GRID]
    rw [encodeLevels]; norm_num [findRow, findCol, gridAt, DIGIPIN_GRID]
    rw [encodeLevels]
  have h2 : generateUDPIN 17.362230 78.523235 =
      ['4', '2', '2', '-', '5', '7', '3', '-', 'C', 'F', '8', '6'] := by
    rw [generateUDPIN, if_pos hin2]
    rw [encodeLevels]; norm_num [findRow, findCol, gridAt, DIGIPIN_GRID, INDIA_BOUNDS]
    rw [encodeLevels]; norm_num [findRow, findCol, gridAt, DIGIPIN_GRID]
    rw [encodeLevels]; norm_num [findRow, findCol, gridAt, DIGIPIN_GRID]
    rw [encodeLevels]; norm_num [findRow, findCol, gridAt, DIGIPIN_GRID]
    rw [encodeLevels]; norm_num [findRow, findCol, gridAt, DIGIPIN_GRID]
    rw [encodeLevels]; norm_num [findRow, findCol, gridAt, DIGIPIN_GRID]
    rw [encodeLevels]; norm_num [findRow, findCol, gridAt, DIGIPIN_GRID]
    rw [encodeLevels]; norm_num [findRow, findCol, gridAt, DIGIPIN_GRID]
    rw [encodeLevels]; norm_num [findRow, findCol, gridAt, DIGIPIN_GRID]
    rw [encodeLevels]; norm_num [findRow, findCol, gridAt, DIGIPIN_GRID]
    rw [encodeLevels]
  refine ⟨hin1, h1, h2, ?_⟩
  rw [h1]
  decide

/-! ## Claim C2 — decoder narrowing versus the encoder's formula -/

/-- C2: the code contradicts its own grid documentation.  The character 'F'
sits at grid position (row 0, col 0), and per the source's grid comment row
0 is the northmost band, so the encoder's step-6 formula narrows the
Regional box to the latitude band [29.5, 38.5]; but the decoder loop adds
`row·latStep` to `minLat` and thus narrows to the southmost band
[2.5, 11.5].  The decoder does not use the encoder's quartering formula for
latitude. -/
theorem decodeLoop_flips_latitude :
    charPos 'F' = some (0, 0) ∧
    decodeLoop ['F'] INDIA_BOUNDS = .ok ⟨2.5, 11.5, 63.5, 72.5⟩ ∧
    INDIA_BOUNDS.maxLat -
        (0 + 1) * ((INDIA_BOUNDS.maxLat - INDIA_BOUNDS.minLat) / 4) = 29.5 ∧
    INDIA_BOUNDS.maxLat - 0 * ((INDIA_BOUNDS.maxLat - INDIA_BOUNDS.minLat) / 4) = 38.5 ∧
    (2.5 : ℚ) ≠ 29.5 := by
  refine ⟨by decide, ?_, by norm_num [INDIA_BOUNDS], by norm_num [INDIA_BOUNDS],
    by norm_num⟩
  have hF : charPos 'F' = some (0, 0) := by decide
  simp only [decodeLoop, hF]
  norm_num [INDIA_BOUNDS]

/-! ## Claim C6 — counterexample: a well-lengthed string with a bad character -/

/-- C6 counterexample: "ZZZZZZZZZZ" cleans to length exactly 10 but
contains the out-of-alphabet character 'Z'; `decodeUDPIN` rejects it with
the generic format error, not with an invalid-character error carrying the
character and its position. -/
theorem decodeUDPIN_bad_char_is_format_error :
    (cleanUDPIN ['Z', 'Z', 'Z', 'Z', 'Z', 'Z', 'Z', 'Z', 'Z', 'Z']).length = 10 ∧
    decodeUDPIN ['Z', 'Z', 'Z', 'Z', 'Z', 'Z', 'Z', 'Z', 'Z', 'Z'] =
      .error .invalidFormat ∧
    decodeUDPIN ['Z', 'Z', 'Z', 'Z', 'Z', 'Z', 'Z', 'Z', 'Z', 'Z'] ≠
      .error (.invalidChar 'Z') := by
  refine ⟨by decide, rfl, ?_⟩
  rw [show decodeUDPIN ['Z', 'Z', 'Z', 'Z', 'Z', 'Z', 'Z', 'Z', 'Z', 'Z'] =
    .error .invalidFormat from rfl]
  simp

/-! ## Character-level helper lemmas -/

/-- On an ASCII lowercase letter, `Char.toUpper` subtracts 32 from the code
point. -/
theorem char_toNat_toUpper_of_lower {c : Char} (h97 : 97 ≤ c.toNat)
    (h122 : c.toNat ≤ 122) : (Char.toUpper c).toNat = c.toNat - 32 := by
  have hv : (c.toNat - 32).isValidChar := Or.inl (by omega)
  simp only [Char.toUpper, ge_iff_le]
  rw [if_pos ⟨h97, h122⟩, Char.ofNat, dif_pos hv]
  rfl

/-- Outside the ASCII lowercase range, `Char.toUpper` is the identity. -/
theorem char_toUpper_of_not_lower {c : Char} (h : ¬(97 ≤ c.toNat ∧ c.toNat ≤ 122)) :
    Char.toUpper c = c := by
  simp only [Char.toUpper, ge_iff_le]
  rw [if_neg h]

/-- Uppercasing never turns a non-hyphen character into a hyphen. -/
theorem toUpper_ne_hyphen {c : Char} (h : c ≠ '-') : Char.toUpper c ≠ '-' := by
  by_cases hl : 97 ≤ c.toNat ∧ c.toNat ≤ 122
  · intro he
    have ht := char_toNat_toUpper_of_lower hl.1 hl.2
    rw [he] at ht
    have h45 : ('-' : Char).toNat = 45 := by decide
    omega
  · rw [char_toUpper_of_not_lower hl]; exact h

/-- `Char.toUpper` is idempotent. -/
theorem toUpper_toUpper (c : Char) : Char.toUpper (Char.toUpper c) = Char.toUpper c := by
  by_cases hl : 97 ≤ c.toNat ∧ c.toNat ≤ 122
  · have ht := char_toNat_toUpper_of_lower hl.1 hl.2
    apply char_toUpper_of_not_lower
    omega
  · rw [char_toUpper_of_not_lower hl, char_toUpper_of_not_lower hl]

/-- Cleaning is idempotent: a cleaned string has no hyphens and is already
uppercase. -/
theorem cleanUDPIN_idem (s : List Char) : cleanUDPIN (cleanUDPIN s) = cleanUDPIN s := by
  unfold cleanUDPIN
  have h1 : List.filter (fun c => c != '-')
      (List.map Char.toUpper (List.filter (fun c => c != '-') s)) =
      List.map Char.toUpper (List.filter (fun c => c != '-') s) := by
    apply List.filter_eq_self.mpr
    intro a ha
    obtain ⟨x, hx, rfl⟩ := List.mem_map.mp ha
    have hxne : (x != '-') = true := (List.mem_filter.mp hx).2
    rw [bne_iff_ne] at hxne
    rw [bne_iff_ne]
    exact toUpper_ne_hyphen hxne
  rw [h1, List.map_map]
  exact List.map_congr_left (fun a _ => toUpper_toUpper a)

/-- Validity is insensitive to pre-cleaning the input. -/
theorem isValidUDPIN_cleanUDPIN (s : List Char) :
    isValidUDPIN (cleanUDPIN s) = isValidUDPIN s := by
  unfold isValidUDPIN
  rw [cleanUDPIN_idem]

/-- Characterisation of the validator: accept exactly cleaned length 10 or
12 with every character in the alphabet. -/
theorem isValidUDPIN_iff (s : List Char) :
    isValidUDPIN s = true ↔
      (((cleanUDPIN s).length = 10 ∨ (cleanUDPIN s).length = 12) ∧
        ∀ c ∈ cleanUDPIN s, c ∈ validChars) := by
  unfold isValidUDPIN
  by_cases h : (cleanUDPIN s).length ≠ 10 ∧ (cleanUDPIN s).length ≠ 12
  · rw [if_pos h]
    simp only [Bool.false_eq_true, false_iff]
    rintro ⟨hlen, -⟩
    rcases hlen with h10 | h12
    · exact absurd h10 h.1
    · exact absurd h12 h.2
  · rw [if_neg h]
    push_neg at h
    simp only [List.all_eq_true]
    constructor
    · intro hall
      refine ⟨?_, fun c hc => ?_⟩
      · by_cases h10 : (cleanUDPIN s).length = 10
        · exact Or.inl h10
        · exact Or.inr (h h10)
      · have hc2 := hall c hc
        simpa [List.contains, List.elem_iff] using hc2
    · rintro ⟨-, hmem⟩ c hc
      simpa [List.contains, List.elem_iff] using hmem c hc

/-! ## Claim C7 — the validator predicate -/

/-- C7: `isValidUDPIN` returns true iff the separator-stripped, uppercased
string has length 10 or 12 and every character belongs to the 16-symbol
alphabet.  It is a total Bool-valued predicate, so in particular cleaned
lengths 9, 11 or 13, and any out-of-alphabet character, yield false and
never an error. -/
theorem isValidUDPIN_spec (s : List Char) :
    isValidUDPIN s = true ↔
      (((cleanUDPIN s).length = 10 ∨ (cleanUDPIN s).length = 12) ∧
        ∀ c ∈ cleanUDPIN s, c ∈ validChars) :=
  isValidUDPIN_iff s

/-! ## Claim C8 — the formatter -/

/-- C8: `formatUDPIN` removes existing separators and uppercases; on
cleaned length 10 it inserts separators after symbol positions 3 and 6, on
cleaned length 12 after positions 4 and 8, and on any other cleaned length
it returns the cleaned string unchanged rather than failing. -/
theorem formatUDPIN_spec (s : List Char) :
    ((cleanUDPIN s).length = 10 →
      formatUDPIN s = insertSeparatorsAfter (cleanUDPIN s) 3 6) ∧
    ((cleanUDPIN s).length = 12 →
      formatUDPIN s = insertSeparatorsAfter (cleanUDPIN s) 4 8) ∧
    ((cleanUDPIN s).length ≠ 10 → (cleanUDPIN s).length ≠ 12 →
      formatUDPIN s = cleanUDPIN s) := by
  refine ⟨fun h10 => ?_, fun h12 => ?_, fun h10 h12 => ?_⟩
  · unfold formatUDPIN
    rw [if_pos h10]
    rfl
  · unfold formatUDPIN
    rw [if_neg (by omega), if_pos h12]
    rfl
  · unfold formatUDPIN
    rw [if_neg h10, if_neg h12]

/-- C8 witness: the formatter on a concrete 10-symbol alphabet string. -/
theorem formatUDPIN_spec_witness :
    (cleanUDPIN ['F', 'C', '9', '8', 'J', '3', '2', '7', 'K', '4']).length = 10 ∧
    formatUDPIN ['F', 'C', '9', '8', 'J', '3', '2', '7', 'K', '4'] =
      insertSeparatorsAfter
        (cleanUDPIN ['F', 'C', '9', '8', 'J', '3', '2', '7', 'K', '4']) 3 6 :=
  ⟨by decide,
    (formatUDPIN_spec ['F', 'C', '9', '8', 'J', '3', '2', '7', 'K', '4']).1 (by decide)⟩

/-! ## Decoder-loop machinery -/

/-- Every valid DIGIPIN character is found by the decoder's grid scan, at a
row and column below 4. -/
theorem charPos_facts : ∀ c ∈ validChars,
    (charPos c).isSome ∧ ((charPos c).getD (0, 0)).1 < 4 ∧
      ((charPos c).getD (0, 0)).2 < 4 := by
  decide

/-- One step of the decoder loop on a character found at (r, k). -/
theorem decodeLoop_cons_some {c : Char} {r k : Nat} (h : charPos c = some (r, k))
    (cs : List Char) (b : Bounds) :
    decodeLoop (c :: cs) b =
      decodeLoop cs
        ⟨b.minLat + r * ((b.maxLat - b.minLat) / 4),
         b.minLat + r * ((b.maxLat - b.minLat) / 4) + (b.maxLat - b.minLat) / 4,
         b.minLon + k * ((b.maxLon - b.minLon) / 4),
         b.minLon + k * ((b.maxLon - b.minLon) / 4) + (b.maxLon - b.minLon) / 4⟩ := by
  simp only [decodeLoop, h]

/-- The decoder loop succeeds on any string of valid characters, and the
final box is a nonempty sub-box of the starting box. -/
theorem decodeLoop_nested :
    ∀ (cs : List Char) (b : Bounds),
      (∀ c ∈ cs, c ∈ validChars) →
      b.minLat < b.maxLat → b.minLon < b.maxLon →
      ∃ bf : Bounds, decodeLoop cs b = .ok bf ∧
        b.minLat ≤ bf.minLat ∧ bf.minLat < bf.maxLat ∧ bf.maxLat ≤ b.maxLat ∧
        b.minLon ≤ bf.minLon ∧ bf.minLon < bf.maxLon ∧ bf.maxLon ≤ b.maxLon := by
  intro cs
  induction cs with
  | nil =>
    intro b _ h1 h2
    exact ⟨b, rfl, le_refl _, h1, le_refl _, le_refl _, h2, le_refl _⟩
  | cons c cs ih =>
    intro b hmem h1 h2
    have hc : c ∈ validChars := hmem c (List.mem_cons_self c cs)
    have hf := charPos_facts c hc
    obtain ⟨p, hp⟩ := Option.isSome_iff_exists.mp hf.1
    obtain ⟨r, k⟩ := p
    rw [hp] at hf
    simp only [Option.getD_some] at hf
    have hr : (r : ℚ) ≤ 3 := by exact_mod_cast Nat.lt_succ_iff.mp hf.2.1
    have hk : (k : ℚ) ≤ 3 := by exact_mod_cast Nat.lt_succ_iff.mp hf.2.2
    have hr0 : (0 : ℚ) ≤ (r : ℚ) := Nat.cast_nonneg r
    have hk0 : (0 : ℚ) ≤ (k : ℚ) := Nat.cast_nonneg k
    have hlat : (0 : ℚ) < (b.maxLat - b.minLat) / 4 := by linarith
    have hlon : (0 : ℚ) < (b.maxLon - b.minLon) / 4 := by linarith
    have hrmul : (0 : ℚ) ≤ (r : ℚ) * ((b.maxLat - b.minLat) / 4) :=
      mul_nonneg hr0 hlat.le
    have hkmul : (0 : ℚ) ≤ (k : ℚ) * ((b.maxLon - b.minLon) / 4) :=
      mul_nonneg hk0 hlon.le
    have hrmul4 : ((r : ℚ) + 1) * ((b.maxLat - b.minLat) / 4) ≤
        4 * ((b.maxLat - b.minLat) / 4) :=
      mul_le_mul_of_nonneg_right (by linarith) hlat.le
    have hkmul4 : ((k : ℚ) + 1) * ((b.maxLon - b.minLon) / 4) ≤
        4 * ((b.maxLon - b.minLon) / 4) :=
      mul_le_mul_of_nonneg_right (by linarith) hlon.le
    rw [decodeLoop_cons_some hp cs b]
    obtain ⟨bf, hbf, hA, hB, hC, hD, hE, hF2⟩ :=
      ih ⟨b.minLat + r * ((b.maxLat - b.minLat) / 4),
          b.minLat + r * ((b.maxLat - b.minLat) / 4) + (b.maxLat - b.minLat) / 4,
          b.minLon + k * ((b.maxLon - b.minLon) / 4),
          b.minLon + k * ((b.maxLon - b.minLon) / 4) + (b.maxLon - b.minLon) / 4⟩
        (fun x hx => hmem x (List.mem_cons_of_mem c hx))
        (by dsimp only; linarith) (by dsimp only; linarith)
    dsimp only at hA hC hD hF2
    refine ⟨bf, hbf, by linarith, hB, by nlinarith, by linarith, hE, by nlinarith⟩

/-! ## Claim C6 (amended) — decoder error discrimination -/

/-- C6 (amended): `decodeUDPIN` fails with the generic InvalidFormat error
exactly when the cleaned input fails `isValidUDPIN` — be it for a length
other than 10/12 or for a character outside the alphabet.  The
per-character invalid-character error (which carries only the character,
no position) is never the outcome. -/
theorem decodeUDPIN_invalidFormat_iff (s : List Char) :
    decodeUDPIN s = .error .invalidFormat ↔ isValidUDPIN s = false := by
  unfold decodeUDPIN
  by_cases hv : isValidUDPIN (cleanUDPIN s) = true
  · rw [if_pos hv]
    have hv2 : isValidUDPIN s = true := by rw [← isValidUDPIN_cleanUDPIN]; exact hv
    have hchars : ∀ c ∈ cleanUDPIN s, c ∈ validChars := by
      have h3 := (isValidUDPIN_iff (cleanUDPIN s)).mp hv
      rw [cleanUDPIN_idem] at h3
      exact h3.2
    have hbox1 : (if (cleanUDPIN s).length = 10 then INDIA_BOUNDS
        else GLOBAL_BOUNDS).minLat <
        (if (cleanUDPIN s).length = 10 then INDIA_BOUNDS else GLOBAL_BOUNDS).maxLat := by
      split_ifs <;> norm_num [INDIA_BOUNDS, GLOBAL_BOUNDS]
    have hbox2 : (if (cleanUDPIN s).length = 10 then INDIA_BOUNDS
        else GLOBAL_BOUNDS).minLon <
        (if (cleanUDPIN s).length = 10 then INDIA_BOUNDS else GLOBAL_BOUNDS).maxLon := by
      split_ifs <;> norm_num [INDIA_BOUNDS, GLOBAL_BOUNDS]
    obtain ⟨bf, hbf, -⟩ := decodeLoop_nested (cleanUDPIN s) _ hchars hbox1 hbox2
    rw [hbf]
    simp [hv2]
  · rw [if_neg hv]
    have hv2 : isValidUDPIN s = false := by
      rw [← isValidUDPIN_cleanUDPIN]
      exact Bool.eq_false_iff.mpr hv
    simp [hv2]

/-! ## Claim C9 — the invalid-character branch is unreachable -/

/-- C9: for every input string, `decodeUDPIN` either fails with the generic
format error raised by the up-front `isValidUDPIN` check, or returns a
coordinate; the per-character invalid-character branch never executes,
because validity already guarantees every cleaned character is in the
grid. -/
theorem decodeUDPIN_no_invalidChar (s : List Char) :
    decodeUDPIN s = .error .invalidFormat ∨ ∃ p : ℚ × ℚ, decodeUDPIN s = .ok p := by
  by_cases hv : isValidUDPIN (cleanUDPIN s) = true
  · right
    have hchars : ∀ c ∈ cleanUDPIN s, c ∈ validChars := by
      have h3 := (isValidUDPIN_iff (cleanUDPIN s)).mp hv
      rw [cleanUDPIN_idem] at h3
      exact h3.2
    have hbox1 : (if (cleanUDPIN s).length = 10 then INDIA_BOUNDS
        else GLOBAL_BOUNDS).minLat <
        (if (cleanUDPIN s).length = 10 then INDIA_BOUNDS else GLOBAL_BOUNDS).maxLat := by
      split_ifs <;> norm_num [INDIA_BOUNDS, GLOBAL_BOUNDS]
    have hbox2 : (if (cleanUDPIN s).length = 10 then INDIA_BOUNDS
        else GLOBAL_BOUNDS).minLon <
        (if (cleanUDPIN s).length = 10 then INDIA_BOUNDS else GLOBAL_BOUNDS).maxLon := by
      split_ifs <;> norm_num [INDIA_BOUNDS, GLOBAL_BOUNDS]
    obtain ⟨bf, hbf, -⟩ := decodeLoop_nested (cleanUDPIN s) _ hchars hbox1 hbox2
    refine ⟨((bf.minLat + bf.maxLat) / 2, (bf.minLon + bf.maxLon) / 2), ?_⟩
    unfold decodeUDPIN
    rw [if_pos hv, hbf]
  · left
    unfold decodeUDPIN
    rw [if_neg hv]

/-! ## Claim C10 — decoded coordinates lie strictly inside the domain box -/

/-- C10: for every validator-accepted string, `decodeUDPIN` returns the
centre of a nonempty cell nested inside the bounding box of the domain
selected by the cleaned length, hence a coordinate strictly inside that
box: lat ∈ (2.5, 38.5), lng ∈ (63.5, 99.5) for length 10, and
lat ∈ (−90, 90), lng ∈ (−180, 180) for length 12. -/
theorem decodeUDPIN_in_domain (s : List Char) (h : isValidUDPIN s = true) :
    ∃ la ln : ℚ, decodeUDPIN s = .ok (la, ln) ∧
      ((cleanUDPIN s).length = 10 →
        2.5 < la ∧ la < 38.5 ∧ 63.5 < ln ∧ ln < 99.5) ∧
      ((cleanUDPIN s).length = 12 →
        -90 < la ∧ la < 90 ∧ -180 < ln ∧ ln < 180) := by
  have hv : isValidUDPIN (cleanUDPIN s) = true := by
    rw [isValidUDPIN_cleanUDPIN]; exact h
  have hchars : ∀ c ∈ cleanUDPIN s, c ∈ validChars := by
    have h3 := (isValidUDPIN_iff (cleanUDPIN s)).mp hv
    rw [cleanUDPIN_idem] at h3
    exact h3.2
  by_cases h10 : (cleanUDPIN s).length = 10
  · obtain ⟨bf, hbf, hA, hB, hC, hD, hE, hF2⟩ :=
      decodeLoop_nested (cleanUDPIN s) INDIA_BOUNDS hchars
        (by norm_num [INDIA_BOUNDS]) (by norm_num [INDIA_BOUNDS])
    simp only [INDIA_BOUNDS] at hA hC hD hF2
    refine ⟨(bf.minLat + bf.maxLat) / 2, (bf.minLon + bf.maxLon) / 2, ?_, ?_, ?_⟩
    · unfold decodeUDPIN
      rw [if_pos hv, if_pos h10, hbf]
    · intro _
      refine ⟨by linarith, by linarith, by linarith, by linarith⟩
    · intro h12
      rw [h10] at h12
      exact absurd h12 (by decide)
  · have h12 : (cleanUDPIN s).length = 12 := by
      have h3 := (isValidUDPIN_iff (cleanUDPIN s)).mp hv
      rw [cleanUDPIN_idem] at h3
      rcases h3.1 with ha | hb
      · exact absurd ha h10
      · exact hb
    obtain ⟨bf, hbf, hA, hB, hC, hD, hE, hF2⟩ :=
      decodeLoop_nested (cleanUDPIN s) GLOBAL_BOUNDS hchars
        (by norm_num [GLOBAL_BOUNDS]) (by norm_num [GLOBAL_BOUNDS])
    simp only [GLOBAL_BOUNDS] at hA hC hD hF2
    refine ⟨(bf.minLat + bf.maxLat) / 2, (bf.minLon + bf.maxLon) / 2, ?_, ?_, ?_⟩
    · unfold decodeUDPIN
      rw [if_pos hv, if_neg h10, hbf]
    · intro h10b
      exact absurd h10b h10
    · intro _
      refine ⟨by linarith, by linarith, by linarith, by linarith⟩

/-- C10 witness: the concrete valid 10-character code "2222222222". -/
theorem decodeUDPIN_in_domain_witness :
    isValidUDPIN ['2', '2', '2', '2', '2', '2', '2', '2', '2', '2'] = true ∧
    ∃ la ln : ℚ,
      decodeUDPIN ['2', '2', '2', '2', '2', '2', '2', '2', '2', '2'] = .ok (la, ln) ∧
      ((cleanUDPIN ['2', '2', '2', '2', '2', '2', '2', '2', '2', '2']).length = 10 →
        2.5 < la ∧ la < 38.5 ∧ 63.5 < ln ∧ ln < 99.5) ∧
      ((cleanUDPIN ['2', '2', '2', '2', '2', '2', '2', '2', '2', '2']).length = 12 →
        -90 < la ∧ la < 90 ∧ -180 < ln ∧ ln < 180) :=
  ⟨by decide,
    decodeUDPIN_in_domain ['2', '2', '2', '2', '2', '2', '2', '2', '2', '2'] (by decide)⟩

/-! ## Encoder structure lemmas -/

/-- The row scan always returns an index below 4. -/
theorem findRow_lt (maxLat latDiv lat : ℚ) : findRow maxLat latDiv lat < 4 := by
  unfold findRow
  split_ifs <;> omega

/-- The column scan always returns an index below 4. -/
theorem findCol_lt (minLng lngDiv lng : ℚ) : findCol minLng lngDiv lng < 4 := by
  unfold findCol
  split_ifs <;> omega

/-- Every in-range grid cell holds a valid DIGIPIN character. -/
theorem gridAt_mem : ∀ r < 4, ∀ k < 4, gridAt r k ∈ validChars := by decide

/-- The encoder loop is the hyphenation of its raw character stream. -/
theorem encodeLevels_eq_hyphenate (ii : Bool) (lat lng : ℚ) :
    ∀ (ls : List Nat) (b : Bounds),
      encodeLevels ii lat lng ls b = hyphenate ii ls (encodeRaw lat lng ls b) := by
  intro ls
  induction ls with
  | nil => intro b; rfl
  | cons l ls ih =>
    intro b
    simp only [encodeLevels, encodeRaw, hyphenate]
    rw [ih]

/-- The raw encoder emits one character per level. -/
theorem encodeRaw_length (lat lng : ℚ) :
    ∀ (ls : List Nat) (b : Bounds), (encodeRaw lat lng ls b).length = ls.length := by
  intro ls
  induction ls with
  | nil => intro b; rfl
  | cons l ls ih =>
    intro b
    simp only [encodeRaw, List.length_cons, ih]

/-- Every character the raw encoder emits is a valid DIGIPIN character. -/
theorem encodeRaw_mem (lat lng : ℚ) :
    ∀ (ls : List Nat) (b : Bounds), ∀ c ∈ encodeRaw lat lng ls b, c ∈ validChars := by
  intro ls
  induction ls with
  | nil => intro b c hc; simp [encodeRaw] at hc
  | cons l ls ih =>
    intro b c hc
    simp only [encodeRaw, List.mem_cons] at hc
    rcases hc with rfl | hc
    · exact gridAt_mem _ (findRow_lt _ _ _) _ (findCol_lt _ _ _)
    · exact ih _ c hc

/-- Valid DIGIPIN characters are neither hyphens nor lowercase. -/
theorem valid_chars_clean_fixed :
    ∀ c ∈ validChars, (c != '-') = true ∧ Char.toUpper c = c := by decide

/-- Cleaning fixes any string of valid DIGIPIN characters. -/
theorem cleanUDPIN_fixed {cs : List Char} (h : ∀ c ∈ cs, c ∈ validChars) :
    cleanUDPIN cs = cs := by
  unfold cleanUDPIN
  rw [List.filter_eq_self.mpr (fun a ha => (valid_chars_clean_fixed a (h a ha)).1)]
  have h2 : List.map Char.toUpper cs = List.map id cs :=
    List.map_congr_left (fun a ha => (valid_chars_clean_fixed a (h a ha)).2)
  rw [h2, List.map_id]

/-- Cleaning distributes over concatenation. -/
theorem cleanUDPIN_append (a b : List Char) :
    cleanUDPIN (a ++ b) = cleanUDPIN a ++ cleanUDPIN b := by
  simp [cleanUDPIN]

/-- Cleaning a cons splits off the cleaned head. -/
theorem cleanUDPIN_cons (c : Char) (t : List Char) :
    cleanUDPIN (c :: t) = cleanUDPIN [c] ++ cleanUDPIN t :=
  cleanUDPIN_append [c] t

/-- The hyphen block inserted after a level cleans to nothing. -/
theorem cleanUDPIN_hy (ii : Bool) (l : Nat) :
    cleanUDPIN (if ii then (if l = 3 ∨ l = 6 then ['-'] else [])
      else (if l = 4 ∨ l = 8 then ['-'] else [])) = [] := by
  split_ifs <;> rfl

/-- Cleaning a hyphenated valid-character string recovers the raw string. -/
theorem cleanUDPIN_hyphenate (ii : Bool) :
    ∀ (cs : List Char) (ls : List Nat), (∀ c ∈ cs, c ∈ validChars) →
      cleanUDPIN (hyphenate ii ls cs) = cs := by
  intro cs
  induction cs with
  | nil => intro ls h; cases ls <;> rfl
  | cons c cs ih =>
    intro ls h
    have hc : c ∈ validChars := h c (List.mem_cons_self c cs)
    have hcs : ∀ x ∈ cs, x ∈ validChars := fun x hx => h x (List.mem_cons_of_mem c hx)
    cases ls with
    | nil =>
      show cleanUDPIN (c :: cs) = c :: cs
      exact cleanUDPIN_fixed h
    | cons l ls =>
      show cleanUDPIN (c :: (_ ++ hyphenate ii ls cs)) = c :: cs
      rw [cleanUDPIN_cons, cleanUDPIN_append, cleanUDPIN_hy, ih ls hcs]
      rw [cleanUDPIN_fixed (by
        intro x hx
        rw [List.mem_singleton] at hx
        subst hx
        exact hc)]
      simp

/-- On a 10-symbol valid-character string, hyphenating levels 1..10 places
hyphens exactly where `formatUDPIN` does. -/
theorem hyphenate_format_10 :
    ∀ cs : List Char, cs.length = 10 → (∀ c ∈ cs, c ∈ validChars) →
      hyphenate true [1, 2, 3, 4, 5, 6, 7, 8, 9, 10] cs = formatUDPIN cs := by
  intro cs hlen h
  have hclean : cleanUDPIN cs = cs := cleanUDPIN_fixed h
  rcases cs with _ | ⟨c1, cs⟩
  · simp at hlen
  rcases cs with _ | ⟨c2, cs⟩
  · simp at hlen
  rcases cs with _ | ⟨c3, cs⟩
  · simp at hlen
  rcases cs with _ | ⟨c4, cs⟩
  · simp at hlen
  rcases cs with _ | ⟨c5, cs⟩
  · simp at hlen
  rcases cs with _ | ⟨c6, cs⟩
  · simp at hlen
  rcases cs with _ | ⟨c7, cs⟩
  · simp at hlen
  rcases cs with _ | ⟨c8, cs⟩
  · simp at hlen
  rcases cs with _ | ⟨c9, cs⟩
  · simp at hlen
  rcases cs with _ | ⟨c10, cs⟩
  · simp at hlen
  rcases cs with _ | ⟨c11, cs⟩
  · unfold formatUDPIN
    rw [hclean]
    rw [if_pos (by simp)]
    simp [hyphenate]
  · exfalso
    simp only [List.length_cons] at hlen
    omega

/-- On a 12-symbol valid-character string, hyphenating levels 1..12 places
hyphens exactly where `formatUDPIN` does. -/
theorem hyphenate_format_12 :
    ∀ cs : List Char, cs.length = 12 → (∀ c ∈ cs, c ∈ validChars) →
      hyphenate false [1, 2, 3, 4, 5, 6, 7, 8, 9, 10, 11, 12] cs = formatUDPIN cs := by
  intro cs hlen h
  have hclean : cleanUDPIN cs = cs := cleanUDPIN_fixed h
  rcases cs with _ | ⟨c1, cs⟩
  · simp at hlen
  rcases cs with _ | ⟨c2, cs⟩
  · simp at hlen
  rcases cs with _ | ⟨c3, cs⟩
  · simp at hlen
  rcases cs with _ | ⟨c4, cs⟩
  · simp at hlen
  rcases cs with _ | ⟨c5, cs⟩
  · simp at hlen
  rcases cs with _ | ⟨c6, cs⟩
  · simp at hlen
  rcases cs with _ | ⟨c7, cs⟩
  · simp at hlen
  rcases cs with _ | ⟨c8, cs⟩
  · simp at hlen
  rcases cs with _ | ⟨c9, cs⟩
  · simp at hlen
  rcases cs with _ | ⟨c10, cs⟩
  · simp at hlen
  rcases cs with _ | ⟨c11, cs⟩
  · simp at hlen
  rcases cs with _ | ⟨c12, cs⟩
  · simp at hlen
  rcases cs with _ | ⟨c13, cs⟩
  · unfold formatUDPIN
    rw [hclean]
    rw [if_neg (by simp), if_pos (by simp)]
    simp [hyphenate]
  · exfalso
    simp only [List.length_cons] at hlen
    omega

/-! ## Claim C3 — shape of the encoder's output -/

/-- C3 counterexample: for the in-range Regional input (30, 70) the encoder
returns a string of length 12 — ten alphabet symbols plus two hyphens —
not a separator-free string of length 10 as the claim states. -/
theorem generateUDPIN_contains_separators :
    isInIndia 30 70 = true ∧
    generateUDPIN 30 70 = ['F', 'P', 'T', '-', '9', 'J', 'T', '-', '9', 'J', 'T', '9'] ∧
    (generateUDPIN 30 70).length ≠ 10 ∧
    '-' ∈ generateUDPIN 30 70 := by
  have hin : isInIndia 30 70 = true := by
    simp only [isInIndia, INDIA_BOUNDS]
    rw [if_pos (by norm_num)]
  have h1 : generateUDPIN 30 70 =
      ['F', 'P', 'T', '-', '9', 'J', 'T', '-', '9', 'J', 'T', '9'] := by
    rw [generateUDPIN, if_pos hin]
    rw [encodeLevels]; norm_num [findRow, findCol, gridAt, DIGIPIN_GRID, INDIA_BOUNDS]
    rw [encodeLevels]; norm_num [findRow, findCol, gridAt, DIGIPIN_GRID]
    rw [encodeLevels]; norm_num [findRow, findCol, gridAt, DIGIPIN_GRID]
    rw [encodeLevels]; norm_num [findRow, findCol, gridAt, DIGIPIN_GRID]
    rw [encodeLevels]; norm_num [findRow, findCol, gridAt, DIGIPIN_GRID]
    rw [encodeLevels]; norm_num [findRow, findCol, gridAt, DIGIPIN_GRID]
    rw [encodeLevels]; norm_num [findRow, findCol, gridAt, DIGIPIN_GRID]
    rw [encodeLevels]; norm_num [findRow, findCol, gridAt, DIGIPIN_GRID]
    rw [encodeLevels]; norm_num [findRow, findCol, gridAt, DIGIPIN_GRID]
    rw [encodeLevels]; norm_num [findRow, findCol, gridAt, DIGIPIN_GRID]
    rw [encodeLevels]
  refine ⟨hin, h1, ?_, ?_⟩
  · rw [h1]; decide
  · rw [h1]; decide

/-- C3 (amended): for every input, the encoder returns the canonically
hyphenated code: stripping separators leaves exactly 10 (Regional) or 12
(Global) symbols, all from the 16-character alphabet (hence uppercase), and
the returned string is its own canonical formatting — hyphens sit after
symbol positions 3 and 6 (Regional) or 4 and 8 (Global), exactly as
`formatUDPIN` places them. -/
theorem generateUDPIN_formatted (lat lng : ℚ) :
    ((cleanUDPIN (generateUDPIN lat lng)).length =
      if isInIndia lat lng then 10 else 12) ∧
    (∀ c ∈ cleanUDPIN (generateUDPIN lat lng), c ∈ validChars) ∧
    generateUDPIN lat lng = formatUDPIN (cleanUDPIN (generateUDPIN lat lng)) := by
  by_cases hii : isInIndia lat lng
  · have hg : generateUDPIN lat lng =
        encodeLevels true lat lng [1, 2, 3, 4, 5, 6, 7, 8, 9, 10] INDIA_BOUNDS := by
      unfold generateUDPIN
      rw [if_pos hii]
    have hmem := encodeRaw_mem lat lng [1, 2, 3, 4, 5, 6, 7, 8, 9, 10] INDIA_BOUNDS
    have hlen : (encodeRaw lat lng [1, 2, 3, 4, 5, 6, 7, 8, 9, 10] INDIA_BOUNDS).length
        = 10 := by
      rw [encodeRaw_length]
      rfl
    have hcl : cleanUDPIN (generateUDPIN lat lng) =
        encodeRaw lat lng [1, 2, 3, 4, 5, 6, 7, 8, 9, 10] INDIA_BOUNDS := by
      rw [hg, encodeLevels_eq_hyphenate]
      exact cleanUDPIN_hyphenate true _ _ hmem
    refine ⟨?_, ?_, ?_⟩
    · rw [hcl, hlen, hii]
      rfl
    · rw [hcl]
      exact hmem
    · rw [hcl, hg, encodeLevels_eq_hyphenate]
      exact hyphenate_format_10 _ hlen hmem
  · have hfalse : isInIndia lat lng = false := Bool.eq_false_iff.mpr hii
    have hg : generateUDPIN lat lng =
        encodeLevels false lat lng [1, 2, 3, 4, 5, 6, 7, 8, 9, 10, 11, 12]
          GLOBAL_BOUNDS := by
      unfold generateUDPIN
      rw [if_neg hii]
    have hmem := encodeRaw_mem lat lng [1, 2, 3, 4, 5, 6, 7, 8, 9, 10, 11, 12]
      GLOBAL_BOUNDS
    have hlen : (encodeRaw lat lng [1, 2, 3, 4, 5, 6, 7, 8, 9, 10, 11, 12]
        GLOBAL_BOUNDS).length = 12 := by
      rw [encodeRaw_length]
      rfl
    have hcl : cleanUDPIN (generateUDPIN lat lng) =
        encodeRaw lat lng [1, 2, 3, 4, 5, 6, 7, 8, 9, 10, 11, 12] GLOBAL_BOUNDS := by
      rw [hg, encodeLevels_eq_hyphenate]
      exact cleanUDPIN_hyphenate false _ _ hmem
    refine ⟨?_, ?_, ?_⟩
    · rw [hcl, hlen, hfalse]
      rfl
    · rw [hcl]
      exact hmem
    · rw [hcl, hg, encodeLevels_eq_hyphenate]
      exact hyphenate_format_12 _ hlen hmem

/-! ## Claim C1 — round-trip idempotence at the code level -/

/-- C1: the code violates round-trip idempotence.  At the in-range input
(30, 70) the encoder produces "FPT-9JT-9JT9"; decoding that code yields the
centre (5767169/524288, 36700165/524288) ≈ (11.0, 70.0) — latitude-mirrored
because the decoder reads grid rows from the south while the encoder reads
them from the north — and re-encoding that centre produces "L98-PK8-PK8P",
a different code. -/
theorem roundtrip_not_idempotent :
    generateUDPIN 30 70 = ['F', 'P', 'T', '-', '9', 'J', 'T', '-', '9', 'J', 'T', '9'] ∧
    decodeUDPIN ['F', 'P', 'T', '-', '9', 'J', 'T', '-', '9', 'J', 'T', '9'] =
      .ok (5767169 / 524288, 36700165 / 524288) ∧
    generateUDPIN (5767169 / 524288) (36700165 / 524288) =
      ['L', '9', '8', '-', 'P', 'K', '8', '-', 'P', 'K', '8', 'P'] ∧
    (['L', '9', '8', '-', 'P', 'K', '8', '-', 'P', 'K', '8', 'P'] : List Char) ≠
      ['F', 'P', 'T', '-', '9', 'J', 'T', '-', '9', 'J', 'T', '9'] := by
  have hin : isInIndia 30 70 = true := by
    simp only [isInIndia, INDIA_BOUNDS]
    rw [if_pos (by norm_num)]
  have h1 : generateUDPIN 30 70 =
      ['F', 'P', 'T', '-', '9', 'J', 'T', '-', '9', 'J', 'T', '9'] := by
    rw [generateUDPIN, if_pos hin]
    rw [encodeLevels]; norm_num [findRow, findCol, gridAt, DIGIPIN_GRID, INDIA_BOUNDS]
    rw [encodeLevels]; norm_num [findRow, findCol, gridAt, DIGIPIN_GRID]
    rw [encodeLevels]; norm_num [findRow, findCol, gridAt, DIGIPIN_GRID]
    rw [encodeLevels]; norm_num [findRow, findCol, gridAt, DIGIPIN_GRID]
    rw [encodeLevels]; norm_num [findRow, findCol, gridAt, DIGIPIN_GRID]
    rw [encodeLevels]; norm_num [findRow, findCol, gridAt, DIGIPIN_GRID]
    rw [encodeLevels]; norm_num [findRow, findCol, gridAt, DIGIPIN_GRID]
    rw [encodeLevels]; norm_num [findRow, findCol, gridAt, DIGIPIN_GRID]
    rw [encodeLevels]; norm_num [findRow, findCol, gridAt, DIGIPIN_GRID]
    rw [encodeLevels]; norm_num [findRow, findCol, gridAt, DIGIPIN_GRID]
    rw [encodeLevels]
  have hcl : cleanUDPIN ['F', 'P', 'T', '-', '9', 'J', 'T', '-', '9', 'J', 'T', '9'] =
      ['F', 'P', 'T', '9', 'J', 'T', '9', 'J', 'T', '9'] := by decide
  have hloop : decodeLoop ['F', 'P', 'T', '9', 'J', 'T', '9', 'J', 'T', '9']
      INDIA_BOUNDS =
      .ok ⟨720895 / 65536, 2883589 / 262144, 9175039 / 131072, 18350087 / 262144⟩ := by
    rw [decodeLoop_cons_some (show charPos 'F' = some (0, 0) from by decide)]
    norm_num [INDIA_BOUNDS]
    rw [decodeLoop_cons_some (show charPos 'P' = some (3, 2) from by decide)]
    norm_num
    rw [decodeLoop_cons_some (show charPos 'T' = some (3, 3) from by decide)]
    norm_num
    rw [decodeLoop_cons_some (show charPos '9' = some (0, 2) from by decide)]
    norm_num
    rw [decodeLoop_cons_some (show charPos 'J' = some (1, 0) from by decide)]
    norm_num
    rw [decodeLoop_cons_some (show charPos 'T' = some (3, 3) from by decide)]
    norm_num
    rw [decodeLoop_cons_some (show charPos '9' = some (0, 2) from by decide)]
    norm_num
    rw [decodeLoop_cons_some (show charPos 'J' = some (1, 0) from by decide)]
    norm_num
    rw [decodeLoop_cons_some (show charPos 'T' = some (3, 3) from by decide)]
    norm_num
    rw [decodeLoop_cons_some (show charPos '9' = some (0, 2) from by decide)]
    norm_num
    rw [decodeLoop]
  have hdec : decodeUDPIN ['F', 'P', 'T', '-', '9', 'J', 'T', '-', '9', 'J', 'T', '9'] =
      .ok (5767169 / 524288, 36700165 / 524288) := by
    unfold decodeUDPIN
    rw [hcl]
    rw [if_pos (show isValidUDPIN ['F', 'P', 'T', '9', 'J', 'T', '9', 'J', 'T', '9'] =
      true from by decide)]
    rw [if_pos (show (['F', 'P', 'T', '9', 'J', 'T', '9', 'J', 'T', '9'] :
      List Char).length = 10 from by decide)]
    rw [hloop]
    norm_num
  have hin2 : isInIndia (5767169 / 524288) (36700165 / 524288) = true := by
    simp only [isInIndia, INDIA_BOUNDS]
    rw [if_pos (by norm_num)]
  have h2 : generateUDPIN (5767169 / 524288) (36700165 / 524288) =
      ['L', '9', '8', '-', 'P', 'K', '8', '-', 'P', 'K', '8', 'P'] := by
    rw [generateUDPIN, if_pos hin2]
    rw [encodeLevels]; norm_num [findRow, findCol, gridAt, DIGIPIN_GRID, INDIA_BOUNDS]
    rw [encodeLevels]; norm_num [findRow, findCol, gridAt, DIGIPIN_GRID]
    rw [encodeLevels]; norm_num [findRow, findCol, gridAt, DIGIPIN_GRID]
    rw [encodeLevels]; norm_num [findRow, findCol, gridAt, DIGIPIN_GRID]
    rw [encodeLevels]; norm_num [findRow, findCol, gridAt, DIGIPIN_GRID]
    rw [encodeLevels]; norm_num [findRow, findCol, gridAt, DIGIPIN_GRID]
    rw [encodeLevels]; norm_num [findRow, findCol, gridAt, DIGIPIN_GRID]
    rw [encodeLevels]; norm_num [findRow, findCol, gridAt, DIGIPIN_GRID]
    rw [encodeLevels]; norm_num [findRow, findCol, gridAt, DIGIPIN_GRID]
    rw [encodeLevels]; norm_num [findRow, findCol, gridAt, DIGIPIN_GRID]
    rw [encodeLevels]
  exact ⟨h1, hdec, h2, by decide⟩

/-- C3 witness: the amended shape statement instantiated at the concrete
input (30, 70). -/
theorem generateUDPIN_formatted_witness :
    ((cleanUDPIN (generateUDPIN 30 70)).length = if isInIndia 30 70 then 10 else 12) ∧
    (∀ c ∈ cleanUDPIN (generateUDPIN 30 70), c ∈ validChars) ∧
    generateUDPIN 30 70 = formatUDPIN (cleanUDPIN (generateUDPIN 30 70)) :=
  generateUDPIN_formatted 30 70

/-- C7 witness: the validator characterisation instantiated on the concrete
accepted code "FC98J32745". -/
theorem isValidUDPIN_spec_witness :
    ((cleanUDPIN ['F', 'C', '9', '8', 'J', '3', '2', '7', '4', '5']).length = 10 ∨
      (cleanUDPIN ['F', 'C', '9', '8', 'J', '3', '2', '7', '4', '5']).length = 12) ∧
    ∀ c ∈ cleanUDPIN ['F', 'C', '9', '8', 'J', '3', '2', '7', '4', '5'],
      c ∈ validChars :=
  (isValidUDPIN_spec ['F', 'C', '9', '8', 'J', '3', '2', '7', '4', '5']).mp (by decide)
